import Mathlib

/-!
Verification of the todo-service repository (FastAPI + SQLAlchemy, files
`app/main.py`, `app/models.py`, `app/schemas.py`) against its natural-language
specification.  The relational table, the query construction of the listing,
stats and export routes, and every request handler are shallowly embedded as
executable Lean definitions; timestamps are modelled as natural numbers, the
SQL `DateTime` columns' `NULL` as `Option`, and each HTTP response as an
`Except` value carrying the status code of the failure branch.
-/

set_option maxHeartbeats 1000000

deriving instance DecidableEq for Except

namespace TodoApp

/-- Translation of `TodoModel` (`app/models.py`): one row of the `todos` table.
`priority` is the integer column (1 = HIGH, 2 = MEDIUM, 3 = LOW), `status` the
string column, `due_date` the nullable timezone-aware timestamp. -/
structure Todo where
  todo_id : Nat
  todo_name : String
  todo_description : String
  priority : Nat
  status : String
  due_date : Option Nat
  is_deleted : Bool
  created_at : Nat
  updated_at : Nat
deriving Repr, DecidableEq

/-- The persistent store: the `todos` table plus the autoincrement counter of
the primary-key column (SQLite starts at 1 and never reuses a value within a
process). -/
structure DB where
  todos : List Todo
  nextId : Nat
deriving Repr, DecidableEq

/-- The empty store right after `Base.metadata.create_all`. -/
def dbInit : DB := { todos := [], nextId := 1 }

/-- Translation of the `SortBy` literal type of `app/schemas.py` line 65: the
seven accepted sort columns.  (`todo_id` and `todo_name` are the concrete
column names of the `id` and `name` fields of the data model.) -/
inductive SortBy where
  | todo_id
  | todo_name
  | priority
  | status
  | due_date
  | created_at
  | updated_at
deriving Repr, DecidableEq

/-- Translation of the `OrderBy` literal type of `app/schemas.py`. -/
inductive OrderBy where
  | asc
  | desc
deriving Repr, DecidableEq

/-- Validation of the raw `sort_by` query-string value against the `SortBy`
literal: exactly the seven column names are accepted. -/
def SortBy.ofString (s : String) : Option SortBy :=
  if s = "todo_id" then some .todo_id
  else if s = "todo_name" then some .todo_name
  else if s = "priority" then some .priority
  else if s = "status" then some .status
  else if s = "due_date" then some .due_date
  else if s = "created_at" then some .created_at
  else if s = "updated_at" then some .updated_at
  else none

/-- FastAPI handling of the `sort_by` query parameter
(`sort_by: SortBy = Query("todo_id")`): an absent parameter defaults to
`todo_id`; a present value outside the literal is a 422 validation failure. -/
def parseSortByParam : Option String → Except Nat SortBy
  | none => .ok .todo_id
  | some s =>
    match SortBy.ofString s with
    | some v => .ok v
    | none => .error 422

/-- SQL `LIKE` pattern matching over character lists, with the standard
wildcards: `%` matches any (possibly empty) sequence, `_` matches exactly one
character, any other pattern character matches itself.  The first argument is
recursion fuel; every recursive call shrinks `pattern.length + s.length`, so
`likeFuel (pattern.length + s.length + 1)` is total on its inputs. -/
def likeFuel : Nat → List Char → List Char → Bool
  | 0, _, _ => false
  | _ + 1, [], [] => true
  | _ + 1, [], _ :: _ => false
  | n + 1, '%' :: ps, [] => likeFuel n ps []
  | n + 1, '%' :: ps, c :: s => likeFuel n ps (c :: s) || likeFuel n ('%' :: ps) s
  | _ + 1, '_' :: _, [] => false
  | n + 1, '_' :: ps, _ :: s => likeFuel n ps s
  | _ + 1, _ :: _, [] => false
  | n + 1, p :: ps, c :: s => (p == c) && likeFuel n ps s

/-- Case-insensitive SQL `LIKE` (the semantics of SQLAlchemy `ilike`): both the
column value and the pattern are lowercased and then matched with the wildcard
semantics of `likeFuel`. -/
def ilikeMatches (s : String) (pattern : String) : Bool :=
  let sc := s.data.map Char.toLower
  let pc := pattern.data.map Char.toLower
  likeFuel (pc.length + sc.length + 1) pc sc

/-- The `q` filter of `list_todos` (`app/main.py` lines 125-131):
`todo_name ILIKE %q%  OR  todo_description ILIKE %q%`, the pattern being built
by plain interpolation, so `%` and `_` inside `q` keep their wildcard
meaning. -/
def qFilter (qs : String) (t : Todo) : Bool :=
  ilikeMatches t.todo_name ("%" ++ qs ++ "%") ||
    ilikeMatches t.todo_description ("%" ++ qs ++ "%")

/-- The second overdue condition of `list_todos` line 135 (`due_date < now`):
a SQL comparison against `NULL` is not true. -/
def overdueLt (now : Nat) (t : Todo) : Bool :=
  match t.due_date with
  | some d => decide (d < now)
  | none => false

/-- The query parameters of `GET /todos` with their declared defaults
(`app/main.py` lines 102-112). -/
structure ListParams where
  limit : Nat := 10
  offset : Nat := 0
  priority : Option Nat := none
  status_filter : Option String := none
  q : Option String := none
  overdue : Bool := false
  sort_by : SortBy := .todo_id
  order : OrderBy := .asc
  include_deleted : Bool := false
deriving Repr, DecidableEq

/-- The default parameter record of `GET /todos`. -/
def dfltParams : ListParams := {}

/-- Ordering on a nullable column as used by `ORDER BY` on `due_date`
(SQLite places `NULL` first in ascending order). -/
def optNatLe (a b : Option Nat) : Bool :=
  match a, b with
  | none, _ => true
  | some _, none => false
  | some x, some y => decide (x ≤ y)

/-- The comparison on the column selected by `sort_by`
(`sort_col = getattr(TodoModel, sort_by)` on line 137). -/
def fieldLe (sb : SortBy) (a b : Todo) : Bool :=
  match sb with
  | .todo_id => decide (a.todo_id ≤ b.todo_id)
  | .todo_name => decide (a.todo_name ≤ b.todo_name)
  | .priority => decide (a.priority ≤ b.priority)
  | .status => decide (a.status ≤ b.status)
  | .due_date => optNatLe a.due_date b.due_date
  | .created_at => decide (a.created_at ≤ b.created_at)
  | .updated_at => decide (a.updated_at ≤ b.updated_at)

/-- The complete `ORDER BY` comparison of line 138:
`sort_col.desc() if order == "desc" else sort_col.asc()`. -/
def sortLe (sb : SortBy) (o : OrderBy) (a b : Todo) : Bool :=
  match o with
  | .asc => fieldLe sb a b
  | .desc => fieldLe sb b a

/-- `sortLe` as a decidable relation, for use with `List.insertionSort`. -/
def sqlOrder (sb : SortBy) (o : OrderBy) : Todo → Todo → Prop :=
  fun a b => sortLe sb o a b = true

instance (sb : SortBy) (o : OrderBy) : DecidableRel (sqlOrder sb o) :=
  fun a b => Bool.decEq (sortLe sb o a b) true

/-- Translation of the filter-assembly part of `list_todos`
(`app/main.py` lines 114-135): the base query narrowed by each supplied
parameter in source order.  `if q:` in Python is false both for an absent
parameter and for the empty string. -/
def list_todos_filtered (p : ListParams) (now : Nat) (db : DB) : List Todo :=
  let query := db.todos
  let query := if p.include_deleted then query else query.filter (fun t => !t.is_deleted)
  let query :=
    match p.priority with
    | none => query
    | some v => query.filter (fun t => t.priority == v)
  let query :=
    match p.status_filter with
    | none => query
    | some s => query.filter (fun t => t.status == s)
  let query :=
    match p.q with
    | none => query
    | some s => if s = "" then query else query.filter (fun t => qFilter s t)
  let query :=
    if p.overdue then (query.filter (fun t => t.due_date.isSome)).filter (fun t => overdueLt now t)
    else query
  query

/-- Translation of `list_todos` (`app/main.py` lines 101-140): filters, then
`ORDER BY`, then `OFFSET`/`LIMIT`. -/
def list_todos (p : ListParams) (now : Nat) (db : DB) : List Todo :=
  (((list_todos_filtered p now db).insertionSort (sqlOrder p.sort_by p.order)).drop p.offset).take
    p.limit

/-- The soft-delete filter clause of `list_todos` (lines 116-117). -/
def deletedClause (p : ListParams) (t : Todo) : Bool :=
  p.include_deleted || !t.is_deleted

/-- The priority filter clause of `list_todos` (lines 119-120). -/
def priorityClause (p : ListParams) (t : Todo) : Bool :=
  match p.priority with | none => true | some v => t.priority == v

/-- The status filter clause of `list_todos` (lines 122-123). -/
def statusClause (p : ListParams) (t : Todo) : Bool :=
  match p.status_filter with | none => true | some s => t.status == s

/-- The `q` filter clause of `list_todos` (lines 125-131): trivial when `q` is
absent or empty, otherwise the case-insensitive `LIKE` disjunction over name
and description. -/
def qClause (p : ListParams) (t : Todo) : Bool :=
  match p.q with | none => true | some s => if s = "" then true else qFilter s t

/-- The overdue filter clause of `list_todos` (lines 133-135): a non-null
due date strictly earlier than the current instant. -/
def overdueClause (p : ListParams) (now : Nat) (t : Todo) : Bool :=
  !p.overdue || (t.due_date.isSome && overdueLt now t)

/-- The conjunction of all the filters a record must satisfy to be part of the
result set of `list_todos`, clause by clause in source order. -/
def matchesFilters (p : ListParams) (now : Nat) (t : Todo) : Bool :=
  deletedClause p t &&
    (priorityClause p t && (statusClause p t && (qClause p t && overdueClause p now t)))

/-- The row shape of the JSON export (`app/main.py` lines 156-169): the exact
field set of the serialized dictionaries. -/
structure ExportRow where
  todo_id : Nat
  todo_name : String
  todo_description : String
  priority : Nat
  status : String
  due_date : Option Nat
  is_deleted : Bool
  created_at : Nat
  updated_at : Nat
deriving Repr, DecidableEq

/-- The dictionary built for one record by the JSON branch of `export_todos`;
a `None` `due_date` stays `None` (serialized as JSON `null`). -/
def exportRow (t : Todo) : ExportRow :=
  { todo_id := t.todo_id
    todo_name := t.todo_name
    todo_description := t.todo_description
    priority := t.priority
    status := t.status
    due_date := t.due_date
    is_deleted := t.is_deleted
    created_at := t.created_at
    updated_at := t.updated_at }

/-- Translation of the query of `export_todos` (`app/main.py` lines 149-153):
the soft-delete filter followed by `ORDER BY todo_id ASC`, with no offset or
limit. -/
def export_query (include_deleted : Bool) (db : DB) : List Todo :=
  (if include_deleted then db.todos else db.todos.filter fun t => !t.is_deleted).insertionSort
    (sqlOrder .todo_id .asc)

/-- Translation of the JSON branch of `export_todos` (lines 155-169). -/
def export_todos_json (include_deleted : Bool) (db : DB) : List ExportRow :=
  (export_query include_deleted db).map exportRow

/-- The four counters returned by `GET /todos/stats`. -/
structure Stats where
  total : Nat
  high : Nat
  medium : Nat
  low : Nat
deriving Repr, DecidableEq

/-- Translation of `todos_stats` (`app/main.py` lines 192-203): the base query
respects `include_deleted`; `high`, `medium`, `low` count priorities 1, 2, 3
over that base. -/
def todos_stats (include_deleted : Bool) (db : DB) : Stats :=
  let base := if include_deleted then db.todos else db.todos.filter (fun t => !t.is_deleted)
  { total := base.length
    high := (base.filter (fun t => t.priority == 1)).length
    medium := (base.filter (fun t => t.priority == 2)).length
    low := (base.filter (fun t => t.priority == 3)).length }

/-- Translation of `require_api_key` (`app/main.py` lines 44-46): the header is
`Header(default="")`, so an absent `X-API-Key` compares as the empty string;
any mismatch with the configured secret yields the 401 error before the
handler body. -/
def require_api_key (apiKey : String) (x_api_key : Option String) : Option Nat :=
  if x_api_key.getD "" ≠ apiKey then some 401 else none

/-- Translation of `get_or_404` (`app/main.py` lines 65-72): filter on the
primary key, optionally filter out soft-deleted rows, take the first row;
`none` is the 404 case. -/
def get_or_404 (todos : List Todo) (todo_id : Nat) (include_deleted : Bool) : Option Todo :=
  let q := todos.filter (fun t => t.todo_id == todo_id)
  let q := if include_deleted then q else q.filter (fun t => !t.is_deleted)
  q.head?

/-- Mutation of the rows whose primary key is `id`, as performed through the
ORM object returned by `get_or_404`.  Reachable states keep ids unique, so at
most one row is affected. -/
def setById (l : List Todo) (id : Nat) (f : Todo → Todo) : List Todo :=
  l.map fun u => if u.todo_id == id then f u else u

/-- The body schema shared by `TodoCreate` and `TodoReplace`
(`app/schemas.py`, `TodoBase`): all five writable fields, with the declared
defaults for the optional ones. -/
structure TodoBasePayload where
  todo_name : String
  todo_description : String
  priority : Nat := 3
  status : String := "NEW"
  due_date : Option Nat := none
deriving Repr, DecidableEq

/-- The pydantic constraints of `TodoBase`: name 3-512 chars, description
1-2000 chars, priority one of the three enum integers, status one of the three
literal strings. -/
def TodoBasePayload.Valid (p : TodoBasePayload) : Prop :=
  3 ≤ p.todo_name.length ∧ p.todo_name.length ≤ 512 ∧
    1 ≤ p.todo_description.length ∧ p.todo_description.length ≤ 2000 ∧
    (p.priority = 1 ∨ p.priority = 2 ∨ p.priority = 3) ∧
    (p.status = "NEW" ∨ p.status = "IN_PROGRESS" ∨ p.status = "DONE")

/-- The body schema of `PATCH /todos/{id}` (`app/schemas.py`, `TodoUpdate`).
The outer `Option` distinguishes a field absent from the payload (`none`) from
a field present in it; the inner `Option` is the field value, `none` being an
explicit JSON `null` (every field of `TodoUpdate` is declared `Optional`). -/
structure TodoUpdatePayload where
  todo_name : Option (Option String) := none
  todo_description : Option (Option String) := none
  priority : Option (Option Nat) := none
  status : Option (Option String) := none
  due_date : Option (Option Nat) := none
deriving Repr, DecidableEq

/-- The pydantic constraints of `TodoUpdate`: each per-field rule applies only
when the field is present and not `null`. -/
def TodoUpdatePayload.Valid (p : TodoUpdatePayload) : Prop :=
  (∀ s, p.todo_name = some (some s) → 3 ≤ s.length ∧ s.length ≤ 512) ∧
    (∀ s, p.todo_description = some (some s) → 1 ≤ s.length ∧ s.length ≤ 2000) ∧
    (∀ v, p.priority = some (some v) → v = 1 ∨ v = 2 ∨ v = 3) ∧
    (∀ s, p.status = some (some s) → s = "NEW" ∨ s = "IN_PROGRESS" ∨ s = "DONE")

/-- The body schema of `PATCH /todos/{id}/status` (`TodoStatusUpdate`). -/
structure TodoStatusPayload where
  status : String
deriving Repr, DecidableEq

/-- The pydantic constraint of `TodoStatusUpdate`. -/
def TodoStatusPayload.Valid (p : TodoStatusPayload) : Prop :=
  p.status = "NEW" ∨ p.status = "IN_PROGRESS" ∨ p.status = "DONE"

/-- Resolution of one nullable-column field of a partial-update payload
(`if "field" in data: todo.field = data["field"]`): an absent field keeps the
old value, a present field (including an explicit `null`) is assigned. -/
def resolveField {α : Type} (supplied : Option (Option α)) (old : α) : Option α :=
  match supplied with
  | none => some old
  | some v => v

/-- Resolution of the `priority` field of a partial-update payload through
`int(data["priority"])`; the explicit-`null` case is unreachable here because
the handler crashes on `int(None)` before using the value. -/
def resolvePrio (supplied : Option (Option Nat)) (old : Nat) : Nat :=
  match supplied with
  | none => old
  | some none => old
  | some (some v) => v

/-- Resolution of the `due_date` field of a partial-update payload: absent
keeps the old value, explicit `null` clears the (nullable) column. -/
def resolveDue (supplied : Option (Option Nat)) (old : Option Nat) : Option Nat :=
  match supplied with
  | none => old
  | some v => v

/-- Column-level writes of a full replace on one ORM row.  SQLAlchemy only
emits an `UPDATE` when some attribute actually changed, and the `onupdate`
clause of `updated_at` fires exactly on such an `UPDATE`. -/
def replaceFields (p : TodoBasePayload) (now : Nat) (t : Todo) : Todo :=
  let t2 :=
    { t with
      todo_name := p.todo_name
      todo_description := p.todo_description
      priority := p.priority
      status := p.status
      due_date := p.due_date }
  if t2 = t then t else { t2 with updated_at := now }

/-- Column-level writes of a partial update on one ORM row, after the handler
has resolved each supplied field; `updated_at` is refreshed when some column
changed. -/
def patchFields (nm ds : String) (pr : Nat) (st : String) (du : Option Nat) (now : Nat)
    (t : Todo) : Todo :=
  let t2 :=
    { t with
      todo_name := nm
      todo_description := ds
      priority := pr
      status := st
      due_date := du }
  if t2 = t then t else { t2 with updated_at := now }

/-- The status-only write of `update_todo_status`. -/
def statusField (st : String) (now : Nat) (t : Todo) : Todo :=
  if t.status = st then t else { t with status := st, updated_at := now }

/-- The soft-delete flag flip of `delete_todo` line 302. -/
def deleteFlag (now : Nat) (t : Todo) : Todo :=
  if t.is_deleted then t else { t with is_deleted := true, updated_at := now }

/-- The restore flag flip of `restore_todo` line 290. -/
def restoreFlag (now : Nat) (t : Todo) : Todo :=
  if t.is_deleted then { t with is_deleted := false, updated_at := now } else t

/-- Translation of `get_todo` (`app/main.py` lines 206-211): the path
constraint `Path(..., ge=1)` rejects non-positive ids with a 422 before any
lookup. -/
def get_todo (todo_id : Int) (db : DB) : Except Nat Todo :=
  if todo_id < 1 then .error 422
  else
    match get_or_404 db.todos todo_id.toNat false with
    | none => .error 404
    | some t => .ok t

/-- Translation of `create_todo` (`app/main.py` lines 214-226): API-key gate,
then insert with server-assigned id and timestamps. -/
def create_todo (apiKey : String) (x : Option String) (p : TodoBasePayload) (now : Nat)
    (db : DB) : Except Nat Todo × DB :=
  match require_api_key apiKey x with
  | some c => (.error c, db)
  | none =>
    let t : Todo :=
      { todo_id := db.nextId
        todo_name := p.todo_name
        todo_description := p.todo_description
        priority := p.priority
        status := p.status
        due_date := p.due_date
        is_deleted := false
        created_at := now
        updated_at := now }
    (.ok t, { todos := db.todos ++ [t], nextId := db.nextId + 1 })

/-- Translation of `replace_todo` (`app/main.py` lines 229-243). -/
def replace_todo (apiKey : String) (x : Option String) (todo_id : Int) (p : TodoBasePayload)
    (now : Nat) (db : DB) : Except Nat Todo × DB :=
  match require_api_key apiKey x with
  | some c => (.error c, db)
  | none =>
    if todo_id < 1 then (.error 422, db)
    else
      match get_or_404 db.todos todo_id.toNat false with
      | none => (.error 404, db)
      | some t =>
        (.ok (replaceFields p now t),
          { db with todos := setById db.todos todo_id.toNat (replaceFields p now) })

/-- Translation of `update_todo` (`app/main.py` lines 246-268).  A payload
whose `priority` is an explicit `null` makes the handler evaluate
`int(None)`, a `TypeError` surfaced as a 500 with no commit; an explicit
`null` on `todo_name`, `todo_description` or `status` is assigned to a
`nullable=False` column, so the commit fails the `NOT NULL` constraint
(`IntegrityError`, surfaced as a 500) and the transaction is rolled back. -/
def update_todo (apiKey : String) (x : Option String) (todo_id : Int) (p : TodoUpdatePayload)
    (now : Nat) (db : DB) : Except Nat Todo × DB :=
  match require_api_key apiKey x with
  | some c => (.error c, db)
  | none =>
    if todo_id < 1 then (.error 422, db)
    else
      match get_or_404 db.todos todo_id.toNat false with
      | none => (.error 404, db)
      | some t =>
        if p.priority = some none then (.error 500, db)
        else
          match resolveField p.todo_name t.todo_name, resolveField p.todo_description
            t.todo_description, resolveField p.status t.status with
          | some nm, some ds, some st =>
            (.ok
              (patchFields nm ds (resolvePrio p.priority t.priority) st
                (resolveDue p.due_date t.due_date) now t),
              { db with
                todos :=
                  setById db.todos todo_id.toNat
                    (patchFields nm ds (resolvePrio p.priority t.priority) st
                      (resolveDue p.due_date t.due_date) now) })
          | _, _, _ => (.error 500, db)

/-- Translation of `update_todo_status` (`app/main.py` lines 271-281). -/
def update_todo_status (apiKey : String) (x : Option String) (todo_id : Int)
    (p : TodoStatusPayload) (now : Nat) (db : DB) : Except Nat Todo × DB :=
  match require_api_key apiKey x with
  | some c => (.error c, db)
  | none =>
    if todo_id < 1 then (.error 422, db)
    else
      match get_or_404 db.todos todo_id.toNat false with
      | none => (.error 404, db)
      | some t =>
        (.ok (statusField p.status now t),
          { db with todos := setById db.todos todo_id.toNat (statusField p.status now) })

/-- Translation of `restore_todo` (`app/main.py` lines 284-293): the lookup
passes `include_deleted=True`, so it operates even on soft-deleted rows. -/
def restore_todo (apiKey : String) (x : Option String) (todo_id : Int) (now : Nat)
    (db : DB) : Except Nat Todo × DB :=
  match require_api_key apiKey x with
  | some c => (.error c, db)
  | none =>
    if todo_id < 1 then (.error 422, db)
    else
      match get_or_404 db.todos todo_id.toNat true with
      | none => (.error 404, db)
      | some t =>
        (.ok (restoreFlag now t),
          { db with todos := setById db.todos todo_id.toNat (restoreFlag now) })

/-- Translation of `delete_todo` (`app/main.py` lines 296-304): a soft delete
returning 204 with no body. -/
def delete_todo (apiKey : String) (x : Option String) (todo_id : Int) (now : Nat)
    (db : DB) : Except Nat Unit × DB :=
  match require_api_key apiKey x with
  | some c => (.error c, db)
  | none =>
    if todo_id < 1 then (.error 422, db)
    else
      match get_or_404 db.todos todo_id.toNat false with
      | none => (.error 404, db)
      | some _ =>
        (.ok (), { db with todos := setById db.todos todo_id.toNat (deleteFlag now) })

/-- Translation of `seed_data` (`app/main.py` lines 75-93): when no active
record exists, five example records are inserted; only the fourth has a
due date. -/
def seed_data (now : Nat) (db : DB) : DB :=
  if ((db.todos.filter (fun t => !t.is_deleted)).head?).isSome then db
  else
    { todos :=
        db.todos ++
          [ { todo_id := db.nextId, todo_name := "Sports", todo_description := "Go to the Gym",
              priority := 2, status := "IN_PROGRESS", due_date := none, is_deleted := false,
              created_at := now, updated_at := now }
          , { todo_id := db.nextId + 1, todo_name := "Clean house",
              todo_description := "Cleaning the house thoroughly", priority := 1, status := "NEW",
              due_date := none, is_deleted := false, created_at := now, updated_at := now }
          , { todo_id := db.nextId + 2, todo_name := "Read",
              todo_description := "Read chapter 5 of the book", priority := 3, status := "DONE",
              due_date := none, is_deleted := false, created_at := now, updated_at := now }
          , { todo_id := db.nextId + 3, todo_name := "Work",
              todo_description := "Complete project documentation", priority := 2, status := "NEW",
              due_date := some now, is_deleted := false, created_at := now, updated_at := now }
          , { todo_id := db.nextId + 4, todo_name := "Study",
              todo_description := "Prepare for upcoming exam", priority := 3, status := "NEW",
              due_date := none, is_deleted := false, created_at := now, updated_at := now } ],
      nextId := db.nextId + 5 }

/-- The store states reachable through the service: the freshly created table,
the startup seeding, and the six mutating endpoints applied with payloads that
passed validation (any caller-supplied key, correct or not). -/
inductive Reachable (apiKey : String) : DB → Prop
  | init : Reachable apiKey dbInit
  | seed {db : DB} (now : Nat) : Reachable apiKey db → Reachable apiKey (seed_data now db)
  | create {db : DB} (x : Option String) (p : TodoBasePayload) (now : Nat) :
      p.Valid → Reachable apiKey db → Reachable apiKey (create_todo apiKey x p now db).2
  | replace {db : DB} (x : Option String) (i : Int) (p : TodoBasePayload) (now : Nat) :
      p.Valid → Reachable apiKey db → Reachable apiKey (replace_todo apiKey x i p now db).2
  | patch {db : DB} (x : Option String) (i : Int) (p : TodoUpdatePayload) (now : Nat) :
      p.Valid → Reachable apiKey db → Reachable apiKey (update_todo apiKey x i p now db).2
  | patchStatus {db : DB} (x : Option String) (i : Int) (p : TodoStatusPayload) (now : Nat) :
      p.Valid → Reachable apiKey db → Reachable apiKey (update_todo_status apiKey x i p now db).2
  | restore {db : DB} (x : Option String) (i : Int) (now : Nat) :
      Reachable apiKey db → Reachable apiKey (restore_todo apiKey x i now db).2
  | delete {db : DB} (x : Option String) (i : Int) (now : Nat) :
      Reachable apiKey db → Reachable apiKey (delete_todo apiKey x i now db).2

/-- The specification's reading of the `q` filter, verbatim: a case-insensitive
substring test (no wildcard interpretation). -/
def isSubstringCI (hay needle : String) : Bool :=
  go (needle.data.map Char.toLower) (hay.data.map Char.toLower)
where
  /-- Substring search over character lists. -/
  go (n : List Char) : List Char → Bool
    | [] => n.isEmpty
    | c :: s => n.isPrefixOf (c :: s) || go n s

/-- The net column effect of soft-deleting and then restoring one row whose
primary key is `id`: only `updated_at` moves (to the restore time). -/
def touchUpdatedAt (id : Nat) (now2 : Nat) (u : Todo) : Todo :=
  if u.todo_id == id then { u with updated_at := now2 } else u

/-! Concrete fixtures used by the closed instances below. -/

/-- A plain active record. -/
def sampleA : Todo :=
  { todo_id := 1, todo_name := "abc", todo_description := "zzz", priority := 3, status := "NEW",
    due_date := none, is_deleted := false, created_at := 0, updated_at := 0 }

/-- A second active record with a due date. -/
def sampleB : Todo :=
  { todo_id := 2, todo_name := "Buy milk", todo_description := "two percent", priority := 2,
    status := "DONE", due_date := some 5, is_deleted := false, created_at := 1, updated_at := 3 }

/-- A soft-deleted record. -/
def sampleDel : Todo :=
  { todo_id := 3, todo_name := "old one", todo_description := "gone", priority := 1,
    status := "NEW", due_date := none, is_deleted := true, created_at := 0, updated_at := 2 }

/-- A small concrete store. -/
def sampleDB : DB := { todos := [sampleA, sampleB, sampleDel], nextId := 4 }

/-- List parameters whose `q` value contains the `_` wildcard. -/
def cexParams : ListParams := { q := some "a_c" }

/-- A partial-update payload carrying an explicit `null` for `todo_name`. -/
def nullNamePayload : TodoUpdatePayload := { todo_name := some none }

/-! Helper lemmas about the filter pipeline. -/

theorem filter_comp {α : Type} (f g : α → Bool) (l : List α) :
    (l.filter f).filter g = l.filter fun a => f a && g a := by
  rw [List.filter_filter]
  exact List.filter_congr fun a _ => by cases f a <;> cases g a <;> rfl

theorem stage_deleted (p : ListParams) (l : List Todo) :
    (if p.include_deleted then l else l.filter fun t => !t.is_deleted) =
      l.filter fun t => deletedClause p t := by
  cases h : p.include_deleted <;> simp [deletedClause, h]

theorem stage_priority (p : ListParams) (l : List Todo) :
    (match p.priority with
      | none => l
      | some v => l.filter fun t => t.priority == v) =
      l.filter fun t => priorityClause p t := by
  cases h : p.priority <;> simp [priorityClause, h]

theorem stage_status (p : ListParams) (l : List Todo) :
    (match p.status_filter with
      | none => l
      | some s => l.filter fun t => t.status == s) =
      l.filter fun t => statusClause p t := by
  cases h : p.status_filter <;> simp [statusClause, h]

theorem stage_q (p : ListParams) (l : List Todo) :
    (match p.q with
      | none => l
      | some s => if s = "" then l else l.filter fun t => qFilter s t) =
      l.filter fun t => qClause p t := by
  cases h : p.q with
  | none => simp [qClause, h]
  | some s => by_cases hs : s = "" <;> simp [qClause, h, hs]

theorem stage_overdue (p : ListParams) (now : Nat) (l : List Todo) :
    (if p.overdue then (l.filter fun t => t.due_date.isSome).filter fun t => overdueLt now t
      else l) =
      l.filter fun t => overdueClause p now t := by
  cases h : p.overdue
  · simp [overdueClause, h]
  · rw [if_pos rfl, filter_comp]
    exact List.filter_congr fun t _ => by
      simp only [overdueClause, h, Bool.not_true, Bool.false_or]

/-- The filter pipeline of `list_todos` keeps exactly the records satisfying
the conjunction of the supplied filters. -/
theorem filtered_eq (p : ListParams) (now : Nat) (db : DB) :
    list_todos_filtered p now db = db.todos.filter (matchesFilters p now) := by
  simp only [list_todos_filtered, matchesFilters]
  rw [stage_deleted, stage_priority, stage_status, stage_q, stage_overdue,
    filter_comp, filter_comp, filter_comp, filter_comp]
  exact List.filter_congr fun t _ => rfl

/-! Helper lemmas about the sort comparison. -/

theorem optNatLe_total (a b : Option Nat) : optNatLe a b = true ∨ optNatLe b a = true := by
  cases a <;> cases b <;> simp [optNatLe]
  omega

theorem optNatLe_trans {a b c : Option Nat} (h1 : optNatLe a b = true)
    (h2 : optNatLe b c = true) : optNatLe a c = true := by
  cases a <;> cases b <;> cases c <;> simp_all [optNatLe]
  omega

theorem fieldLe_total (sb : SortBy) (a b : Todo) :
    fieldLe sb a b = true ∨ fieldLe sb b a = true := by
  cases sb <;> simp [fieldLe] <;>
    first
      | omega
      | exact le_total _ _
      | exact optNatLe_total _ _

theorem fieldLe_trans {sb : SortBy} {a b c : Todo} (h1 : fieldLe sb a b = true)
    (h2 : fieldLe sb b c = true) : fieldLe sb a c = true := by
  cases sb <;> simp [fieldLe] at h1 h2 ⊢ <;>
    first
      | omega
      | exact le_trans h1 h2
      | exact optNatLe_trans h1 h2

theorem sortLe_total (sb : SortBy) (o : OrderBy) (a b : Todo) :
    sortLe sb o a b = true ∨ sortLe sb o b a = true := by
  cases o
  · exact fieldLe_total sb a b
  · exact fieldLe_total sb b a

theorem sortLe_trans {sb : SortBy} {o : OrderBy} {a b c : Todo}
    (h1 : sortLe sb o a b = true) (h2 : sortLe sb o b c = true) : sortLe sb o a c = true := by
  cases o
  · exact fieldLe_trans h1 h2
  · exact fieldLe_trans h2 h1

/-- The result of `ORDER BY` is sorted under the selected comparison. -/
theorem sorted_sql (sb : SortBy) (o : OrderBy) (l : List Todo) :
    (l.insertionSort (sqlOrder sb o)).Pairwise (sqlOrder sb o) := by
  letI : IsTotal Todo (sqlOrder sb o) := ⟨fun a b => sortLe_total sb o a b⟩
  letI : IsTrans Todo (sqlOrder sb o) := ⟨fun a b c h1 h2 => sortLe_trans h1 h2⟩
  exact List.sorted_insertionSort _ l

/-- An `OFFSET`/`LIMIT` window is a contiguous slice of the underlying list. -/
theorem take_drop_infix {α : Type} (l : List α) (o n : Nat) : (l.drop o).take n <:+: l := by
  refine ⟨l.take o, (l.drop o).drop n, ?_⟩
  rw [List.append_assoc, List.take_append_drop, List.take_append_drop]

/-- An `OFFSET`/`LIMIT` window is a sublist of the underlying list. -/
theorem take_drop_sublist {α : Type} (l : List α) (o n : Nat) :
    List.Sublist ((l.drop o).take n) l :=
  (List.take_sublist _ _).trans (List.drop_sublist _ _)

/-! Claim C4: sorting. -/

/-- C4: for every store state and accepted `sort_by`/`order` value, the result
of `list_todos` is monotonic on the selected field (non-decreasing for `asc`,
non-increasing for `desc`), and it is a contiguous window of the sorted full
filtered set — sorting is applied before the offset/limit pagination. -/
theorem claim_sort_monotone (p : ListParams) (now : Nat) (db : DB) :
    (list_todos p now db).Pairwise (sqlOrder p.sort_by p.order) ∧
    list_todos p now db <:+:
      (list_todos_filtered p now db).insertionSort (sqlOrder p.sort_by p.order) ∧
    (p.order = OrderBy.asc →
      (list_todos p now db).Pairwise fun a b => fieldLe p.sort_by a b = true) ∧
    (p.order = OrderBy.desc →
      (list_todos p now db).Pairwise fun a b => fieldLe p.sort_by b a = true) := by
  have hpw : (list_todos p now db).Pairwise (sqlOrder p.sort_by p.order) :=
    List.Pairwise.sublist (take_drop_sublist _ _ _) (sorted_sql _ _ _)
  refine ⟨hpw, take_drop_infix _ _ _, fun ho => ?_, fun ho => ?_⟩
  · rw [ho] at hpw; exact hpw
  · rw [ho] at hpw; exact hpw

/-- Witness for C4: a concrete descending priority sort over the sample store
is non-increasing on the priority column. -/
theorem claim_sort_monotone_witness :
    (list_todos { sort_by := SortBy.priority, order := OrderBy.desc } 0 sampleDB).Pairwise
      fun a b => fieldLe SortBy.priority b a = true :=
  (claim_sort_monotone { sort_by := SortBy.priority, order := OrderBy.desc } 0 sampleDB).2.2.2 rfl

/-! Claim C3: filter conjunction semantics. -/

/-- C3 counterexample: with `q = "a_c"` the record named `"abc"` is returned
by `list_todos` although `"a_c"` is not a case-insensitive substring of its
name or of its description — the `_` in `q` is interpreted as the SQL `LIKE`
single-character wildcard, so the claimed substring semantics of the `q`
filter is refuted. -/
theorem claim_q_substring_cex :
    sampleA ∈ list_todos cexParams 0 { todos := [sampleA], nextId := 2 } ∧
    isSubstringCI sampleA.todo_name "a_c" = false ∧
    isSubstringCI sampleA.todo_description "a_c" = false :=
  ⟨by decide, by decide, by decide⟩

/-- C3 amended: when no pagination truncation occurs (`offset = 0` and the
filtered set fits in `limit`), `list_todos` returns exactly the records
satisfying the conjunction of all supplied filters, where the `q` clause is
the case-insensitive SQL `LIKE` match of `%q%` against name or description
(equivalent to a substring test only when `q` contains no `%`/`_` wildcard),
and the overdue clause requires a non-null due date strictly earlier than the
current instant. -/
theorem claim_filter_conjunction (p : ListParams) (now : Nat) (db : DB)
    (h0 : p.offset = 0)
    (hl : (db.todos.filter (matchesFilters p now)).length ≤ p.limit) :
    List.Perm (list_todos p now db) (db.todos.filter (matchesFilters p now)) := by
  have hlen :
      ((db.todos.filter (matchesFilters p now)).insertionSort
          (sqlOrder p.sort_by p.order)).length ≤ p.limit := by
    rw [(List.perm_insertionSort _ _).length_eq]
    exact hl
  unfold list_todos
  rw [filtered_eq, h0, List.drop_zero, List.take_of_length_le hlen]
  exact List.perm_insertionSort _ _

/-- Witness for C3 at a concrete store and a concrete `q` filter. -/
theorem claim_filter_conjunction_witness :
    List.Perm (list_todos { q := some "b" } 7 sampleDB)
      (sampleDB.todos.filter (matchesFilters { q := some "b" } 7)) :=
  claim_filter_conjunction { q := some "b" } 7 sampleDB rfl (by decide)

/-! Claim C7: accepted sort_by values. -/

/-- C7: the `sort_by` parameter accepts exactly the seven enumerated column
names (the columns of the seven data-model fields id, name, priority, status,
due_date, created_at, updated_at), its default is the id column, and every
other value is rejected with a 422 validation failure instead of being
ignored. -/
theorem claim_sort_by_values :
    (∀ s : String, (SortBy.ofString s).isSome = true ↔
      (s = "todo_id" ∨ s = "todo_name" ∨ s = "priority" ∨ s = "status" ∨ s = "due_date" ∨
        s = "created_at" ∨ s = "updated_at")) ∧
    parseSortByParam none = Except.ok SortBy.todo_id ∧
    (∀ s : String, SortBy.ofString s = none → parseSortByParam (some s) = Except.error 422) ∧
    (∀ s v, parseSortByParam (some s) = Except.ok v → SortBy.ofString s = some v) := by
  refine ⟨?_, rfl, ?_, ?_⟩
  · intro s
    unfold SortBy.ofString
    split_ifs with h1 h2 h3 h4 h5 h6 h7 <;> simp_all
  · intro s h
    simp only [parseSortByParam]
    rw [h]
  · intro s v h
    simp only [parseSortByParam] at h
    cases ho : SortBy.ofString s with
    | none => rw [ho] at h; simp at h
    | some w =>
      rw [ho] at h
      simp at h
      rw [h]

/-- Witness for C7: the value `"name"` (not a column name) is rejected with a
422 validation failure. -/
theorem claim_sort_by_values_witness :
    parseSortByParam (some "name") = Except.error 422 :=
  claim_sort_by_values.2.2.1 "name" (by decide)

/-! Claim C2: the API-key gate on mutating operations. -/

theorem require_api_key_fail {apiKey : String} {x : Option String}
    (h : x.getD "" ≠ apiKey) : require_api_key apiKey x = some 401 := by
  unfold require_api_key
  rw [if_pos h]

theorem require_api_key_pass {apiKey : String} {x : Option String}
    (h : x.getD "" = apiKey) : require_api_key apiKey x = none := by
  unfold require_api_key
  rw [if_neg (not_not_intro h)]

/-- C2: every mutating operation (create, replace, partial update, status
update, restore, delete) called with an `X-API-Key` header differing from the
configured secret — an absent header comparing as the empty string — returns
401 and leaves the store exactly as it was; the handler body never runs. -/
theorem claim_auth_gate (apiKey : String) (x : Option String) (h : x.getD "" ≠ apiKey)
    (db : DB) (pb : TodoBasePayload) (pu : TodoUpdatePayload) (ps : TodoStatusPayload)
    (i : Int) (now : Nat) :
    create_todo apiKey x pb now db = (.error 401, db) ∧
    replace_todo apiKey x i pb now db = (.error 401, db) ∧
    update_todo apiKey x i pu now db = (.error 401, db) ∧
    update_todo_status apiKey x i ps now db = (.error 401, db) ∧
    restore_todo apiKey x i now db = (.error 401, db) ∧
    delete_todo apiKey x i now db = (.error 401, db) := by
  have hra := require_api_key_fail h
  refine ⟨?_, ?_, ?_, ?_, ?_, ?_⟩
  · unfold create_todo; rw [hra]
  · unfold replace_todo; rw [hra]
  · unfold update_todo; rw [hra]
  · unfold update_todo_status; rw [hra]
  · unfold restore_todo; rw [hra]
  · unfold delete_todo; rw [hra]

/-- Witness for C2: a concrete absent header against the default secret. -/
theorem claim_auth_gate_witness :
    create_todo "name_here" none { todo_name := "Buy milk", todo_description := "2 percent" } 9
        sampleDB = (.error 401, sampleDB) ∧
    delete_todo "name_here" none 1 9 sampleDB = (.error 401, sampleDB) := by
  have h := claim_auth_gate "name_here" none (by decide) sampleDB
    { todo_name := "Buy milk", todo_description := "2 percent" } {} { status := "DONE" } 1 9
  exact ⟨h.1, h.2.2.2.2.2⟩

/-! Claim C10: the `ge=1` path constraint on per-id operations. -/

/-- C10: every per-id operation declares `Path(..., ge=1)`, so a request with
id 0 or negative fails as a 422 validation error independently of the store
content, never reaches the 404 not-found outcome, and leaves the store
unchanged.  (On mutating routes the API-key dependency fires first, so the 422
is observed by callers that pass the key gate; with a wrong key the request
fails 401, still never 404 and still without touching the store.) -/
theorem claim_path_id_validation (i : Int) (hi : i < 1) (apiKey : String) (x : Option String)
    (db : DB) (pb : TodoBasePayload) (pu : TodoUpdatePayload) (ps : TodoStatusPayload)
    (now : Nat) :
    get_todo i db = .error 422 ∧
    (x.getD "" = apiKey →
      replace_todo apiKey x i pb now db = (.error 422, db) ∧
      update_todo apiKey x i pu now db = (.error 422, db) ∧
      update_todo_status apiKey x i ps now db = (.error 422, db) ∧
      restore_todo apiKey x i now db = (.error 422, db) ∧
      delete_todo apiKey x i now db = (.error 422, db)) ∧
    (replace_todo apiKey x i pb now db).1 ≠ .error 404 ∧
    (update_todo apiKey x i pu now db).1 ≠ .error 404 ∧
    (update_todo_status apiKey x i ps now db).1 ≠ .error 404 ∧
    (restore_todo apiKey x i now db).1 ≠ .error 404 ∧
    (delete_todo apiKey x i now db).1 ≠ .error 404 ∧
    get_todo i db ≠ .error 404 ∧
    (replace_todo apiKey x i pb now db).2 = db ∧
    (update_todo apiKey x i pu now db).2 = db ∧
    (update_todo_status apiKey x i ps now db).2 = db ∧
    (restore_todo apiKey x i now db).2 = db ∧
    (delete_todo apiKey x i now db).2 = db := by
  have hget : get_todo i db = .error 422 := by
    unfold get_todo
    rw [if_pos hi]
  by_cases hx : x.getD "" = apiKey
  · have hra := require_api_key_pass hx
    have h1 : replace_todo apiKey x i pb now db = (.error 422, db) := by
      unfold replace_todo; rw [hra, if_pos hi]
    have h2 : update_todo apiKey x i pu now db = (.error 422, db) := by
      unfold update_todo; rw [hra, if_pos hi]
    have h3 : update_todo_status apiKey x i ps now db = (.error 422, db) := by
      unfold update_todo_status; rw [hra, if_pos hi]
    have h4 : restore_todo apiKey x i now db = (.error 422, db) := by
      unfold restore_todo; rw [hra, if_pos hi]
    have h5 : delete_todo apiKey x i now db = (.error 422, db) := by
      unfold delete_todo; rw [hra, if_pos hi]
    refine ⟨hget, fun _ => ⟨h1, h2, h3, h4, h5⟩, ?_, ?_, ?_, ?_, ?_, ?_, ?_, ?_, ?_, ?_, ?_⟩ <;>
      simp [h1, h2, h3, h4, h5, hget]
  · have hra := require_api_key_fail hx
    have h1 : replace_todo apiKey x i pb now db = (.error 401, db) := by
      unfold replace_todo; rw [hra]
    have h2 : update_todo apiKey x i pu now db = (.error 401, db) := by
      unfold update_todo; rw [hra]
    have h3 : update_todo_status apiKey x i ps now db = (.error 401, db) := by
      unfold update_todo_status; rw [hra]
    have h4 : restore_todo apiKey x i now db = (.error 401, db) := by
      unfold restore_todo; rw [hra]
    have h5 : delete_todo apiKey x i now db = (.error 401, db) := by
      unfold delete_todo; rw [hra]
    refine ⟨hget, fun hc => absurd hc hx, ?_, ?_, ?_, ?_, ?_, ?_, ?_, ?_, ?_, ?_, ?_⟩ <;>
      simp [h1, h2, h3, h4, h5, hget]

/-- Witness for C10 at id 0 with a correct key over the sample store. -/
theorem claim_path_id_validation_witness :
    get_todo 0 sampleDB = .error 422 ∧
    delete_todo "k" (some "k") 0 9 sampleDB = (.error 422, sampleDB) := by
  have h := claim_path_id_validation 0 (by decide) "k" (some "k") sampleDB
    { todo_name := "Buy milk", todo_description := "2 percent" } {} { status := "DONE" } 9
  exact ⟨h.1, (h.2.1 rfl).2.2.2.2⟩

/-! Claim C1: soft-delete exclusion on the read operations. -/

/-- Every record returned by `list_todos` comes from the store and satisfies
the filter conjunction. -/
theorem mem_list_todos {p : ListParams} {now : Nat} {db : DB} {t : Todo}
    (h : t ∈ list_todos p now db) :
    t ∈ db.todos ∧ matchesFilters p now t = true := by
  have h1 : t ∈ (list_todos_filtered p now db).insertionSort (sqlOrder p.sort_by p.order) :=
    (take_drop_sublist _ _ _).subset h
  have h2 : t ∈ list_todos_filtered p now db :=
    (List.perm_insertionSort _ _).mem_iff.mp h1
  rw [filtered_eq] at h2
  exact ⟨(List.mem_filter.mp h2).1, (List.mem_filter.mp h2).2⟩

/-- C1: with `include_deleted = false` no soft-deleted record is returned by
the listing, none is exported, and the stats counters ignore soft-deleted
records entirely; with `include_deleted = true` a soft-deleted record can be
returned. -/
theorem claim_include_deleted_exclusion :
    (∀ (p : ListParams) (now : Nat) (db : DB) (t : Todo),
      p.include_deleted = false → t ∈ list_todos p now db → t.is_deleted = false) ∧
    (∀ (db : DB) (r : ExportRow), r ∈ export_todos_json false db → r.is_deleted = false) ∧
    (∀ (db : DB) (t : Todo) (n : Nat), t.is_deleted = true →
      todos_stats false { todos := db.todos ++ [t], nextId := n } = todos_stats false db) ∧
    (∃ (p : ListParams) (now : Nat) (db : DB) (t : Todo),
      p.include_deleted = true ∧ t ∈ list_todos p now db ∧ t.is_deleted = true) := by
  refine ⟨?_, ?_, ?_, ?_⟩
  · intro p now db t hp hmem
    have h := (mem_list_todos hmem).2
    simp only [matchesFilters, deletedClause, hp, Bool.false_or, Bool.and_eq_true] at h
    simpa using h.1
  · intro db r hmem
    unfold export_todos_json at hmem
    rcases List.mem_map.mp hmem with ⟨t, ht, rfl⟩
    simp only [export_query, if_neg (by simp : ¬(false = true))] at ht
    have ht2 := (List.perm_insertionSort _ _).mem_iff.mp ht
    have ht3 := (List.mem_filter.mp ht2).2
    simpa [exportRow] using ht3
  · intro db t n hd
    unfold todos_stats
    simp [List.filter_append, hd]
  · exact ⟨{ include_deleted := true }, 0, { todos := [sampleDel], nextId := 4 }, sampleDel,
      rfl, by decide, rfl⟩

/-- Witness for C1: a record of the default listing of the sample store is not
soft-deleted, and appending a soft-deleted record leaves the default stats
unchanged. -/
theorem claim_include_deleted_exclusion_witness :
    sampleA.is_deleted = false ∧
    todos_stats false { todos := sampleDB.todos ++ [sampleDel], nextId := 5 } =
      todos_stats false sampleDB :=
  ⟨claim_include_deleted_exclusion.1 dfltParams 0 sampleDB sampleA rfl (by decide),
    claim_include_deleted_exclusion.2.2.1 sampleDB sampleDel 5 rfl⟩

/-! Claim C8: the JSON export contract. -/

/-- C8: for every store and `include_deleted` value, the JSON export is a
permutation of the full filtered record set rendered row by row (no
pagination), it is sorted by id ascending, and each row carries exactly the
nine fields of the record — `due_date` copied as is, so a null stays null. -/
theorem claim_export_json_contract (inc : Bool) (db : DB) :
    List.Perm (export_todos_json inc db)
      ((if inc then db.todos else db.todos.filter fun t => !t.is_deleted).map exportRow) ∧
    (export_todos_json inc db).Pairwise (fun a b => a.todo_id ≤ b.todo_id) ∧
    ∀ t : Todo, exportRow t =
      { todo_id := t.todo_id, todo_name := t.todo_name,
        todo_description := t.todo_description, priority := t.priority, status := t.status,
        due_date := t.due_date, is_deleted := t.is_deleted, created_at := t.created_at,
        updated_at := t.updated_at } := by
  refine ⟨(List.perm_insertionSort _ _).map exportRow, ?_, fun t => rfl⟩
  have hs := sorted_sql SortBy.todo_id OrderBy.asc
    (if inc then db.todos else db.todos.filter fun t => !t.is_deleted)
  exact List.Pairwise.map exportRow
    (fun a b hab => by simpa [sqlOrder, sortLe, fieldLe, exportRow] using hab) hs

/-! Claim C9: the stats invariant on reachable states. -/

/-- Characterization of a successful `get_or_404` lookup. -/
theorem get_or_404_spec {todos : List Todo} {id : Nat} {incl : Bool} {t : Todo}
    (h : get_or_404 todos id incl = some t) :
    t ∈ todos ∧ t.todo_id = id ∧ (incl = false → t.is_deleted = false) := by
  unfold get_or_404 at h
  cases incl
  · rcases List.head?_eq_some_iff.mp h with ⟨ys, hys⟩
    have hys2 : (todos.filter fun u => u.todo_id == id).filter (fun u => !u.is_deleted) =
        t :: ys := hys
    have hmem : t ∈ (todos.filter fun u => u.todo_id == id).filter fun u => !u.is_deleted := by
      rw [hys2]
      exact List.mem_cons_self _ _
    have h1 := List.mem_filter.mp hmem
    have h2 := List.mem_filter.mp h1.1
    refine ⟨h2.1, by simpa using h2.2, fun _ => by simpa using h1.2⟩
  · rcases List.head?_eq_some_iff.mp h with ⟨ys, hys⟩
    have hys2 : todos.filter (fun u => u.todo_id == id) = t :: ys := hys
    have hmem : t ∈ todos.filter fun u => u.todo_id == id := by
      rw [hys2]
      exact List.mem_cons_self _ _
    have h2 := List.mem_filter.mp hmem
    exact ⟨h2.1, by simpa using h2.2, fun hc => by simp at hc⟩

/-- The three enumerated priority levels of the data model. -/
def prioOk3 (t : Todo) : Prop :=
  t.priority = 1 ∨ t.priority = 2 ∨ t.priority = 3

theorem replaceFields_priority (p : TodoBasePayload) (now : Nat) (t : Todo) :
    (replaceFields p now t).priority = p.priority := by
  unfold replaceFields
  dsimp only
  split
  · next h => exact congrArg Todo.priority h.symm
  · rfl

theorem patchFields_priority (nm ds : String) (pr : Nat) (st : String) (du : Option Nat)
    (now : Nat) (t : Todo) : (patchFields nm ds pr st du now t).priority = pr := by
  unfold patchFields
  dsimp only
  split
  · next h => exact congrArg Todo.priority h.symm
  · rfl

theorem statusField_priority (st : String) (now : Nat) (t : Todo) :
    (statusField st now t).priority = t.priority := by
  unfold statusField
  split <;> rfl

theorem deleteFlag_priority (now : Nat) (t : Todo) :
    (deleteFlag now t).priority = t.priority := by
  unfold deleteFlag
  split <;> rfl

theorem restoreFlag_priority (now : Nat) (t : Todo) :
    (restoreFlag now t).priority = t.priority := by
  unfold restoreFlag
  split <;> rfl

theorem resolvePrio_ok {supplied : Option (Option Nat)} {old : Nat}
    (hv : ∀ v, supplied = some (some v) → v = 1 ∨ v = 2 ∨ v = 3)
    (hold : old = 1 ∨ old = 2 ∨ old = 3) :
    resolvePrio supplied old = 1 ∨ resolvePrio supplied old = 2 ∨
      resolvePrio supplied old = 3 := by
  rcases supplied with _ | v
  · exact hold
  · rcases v with _ | w
    · exact hold
    · exact hv w rfl

/-- Membership in a `setById` image reduces to membership before the write. -/
theorem prioOk3_setById {l : List Todo} {id : Nat} {f : Todo → Todo}
    (hl : ∀ t ∈ l, prioOk3 t) (hf : ∀ t ∈ l, prioOk3 (f t)) :
    ∀ t ∈ setById l id f, prioOk3 t := by
  intro t ht
  rcases List.mem_map.mp ht with ⟨u, hu, rfl⟩
  split
  · exact hf u hu
  · exact hl u hu

/-- Splitting the length of a list of records with enumerated priorities into
the three per-priority counts. -/
theorem length_eq_prio_counts (l : List Todo)
    (h : ∀ t ∈ l, prioOk3 t) :
    l.length = (l.filter fun t => t.priority == 1).length +
      (l.filter fun t => t.priority == 2).length +
      (l.filter fun t => t.priority == 3).length := by
  induction l with
  | nil => rfl
  | cons a l ih =>
    have ha := h a (List.mem_cons_self _ _)
    have ih2 := ih fun t ht => h t (List.mem_cons_of_mem _ ht)
    rcases ha with h1 | h1 | h1 <;>
      simp [List.filter_cons, h1, ih2] <;> omega

/-- Every reachable store state only holds records with an enumerated
priority level. -/
theorem reachable_prioInv {apiKey : String} {db : DB} (h : Reachable apiKey db) :
    ∀ t ∈ db.todos, prioOk3 t := by
  induction h with
  | init => intro t ht; cases ht
  | @seed dbp now _ ih =>
    intro t ht
    unfold seed_data at ht
    split at ht
    · exact ih t ht
    · rcases List.mem_append.mp ht with h2 | h2
      · exact ih t h2
      · simp only [List.mem_cons, List.mem_singleton, List.not_mem_nil, or_false] at h2
        rcases h2 with rfl | rfl | rfl | rfl | rfl <;> simp [prioOk3]
  | @create dbp x p now hv _ ih =>
    intro t ht
    unfold create_todo at ht
    cases hk : require_api_key apiKey x with
    | some c => rw [hk] at ht; exact ih t ht
    | none =>
      rw [hk] at ht
      rcases List.mem_append.mp ht with h2 | h2
      · exact ih t h2
      · rcases List.mem_singleton.mp h2 with rfl
        exact hv.2.2.2.2.1
  | @replace dbp x i p now hv _ ih =>
    intro t ht
    unfold replace_todo at ht
    cases hk : require_api_key apiKey x with
    | some c => rw [hk] at ht; exact ih t ht
    | none =>
      rw [hk] at ht
      by_cases hi : i < 1
      · rw [if_pos hi] at ht; exact ih t ht
      · rw [if_neg hi] at ht
        cases hg : get_or_404 dbp.todos i.toNat false with
        | none => rw [hg] at ht; exact ih t ht
        | some t0 =>
          rw [hg] at ht
          have ht2 : t ∈ setById dbp.todos i.toNat (replaceFields p now) := ht
          refine prioOk3_setById ih (fun u _ => ?_) t ht2
          unfold prioOk3
          rw [replaceFields_priority]
          exact hv.2.2.2.2.1
  | @patch dbp x i p now hv _ ih =>
    intro t ht
    unfold update_todo at ht
    cases hk : require_api_key apiKey x with
    | some c => rw [hk] at ht; exact ih t ht
    | none =>
      rw [hk] at ht
      by_cases hi : i < 1
      · rw [if_pos hi] at ht; exact ih t ht
      · rw [if_neg hi] at ht
        cases hg : get_or_404 dbp.todos i.toNat false with
        | none => rw [hg] at ht; exact ih t ht
        | some t0 =>
          rw [hg] at ht
          dsimp only at ht
          by_cases hpn : p.priority = some none
          · rw [if_pos hpn] at ht; exact ih t ht
          · rw [if_neg hpn] at ht
            have ht0 : prioOk3 t0 := ih t0 (get_or_404_spec hg).1
            cases hnm : resolveField p.todo_name t0.todo_name with
            | none => rw [hnm] at ht; exact ih t ht
            | some nm =>
              cases hds : resolveField p.todo_description t0.todo_description with
              | none => rw [hnm, hds] at ht; exact ih t ht
              | some ds =>
                cases hst : resolveField p.status t0.status with
                | none => rw [hnm, hds, hst] at ht; exact ih t ht
                | some st =>
                  rw [hnm, hds, hst] at ht
                  have ht2 : t ∈ setById dbp.todos i.toNat
                      (patchFields nm ds (resolvePrio p.priority t0.priority) st
                        (resolveDue p.due_date t0.due_date) now) := ht
                  refine prioOk3_setById ih (fun u _ => ?_) t ht2
                  unfold prioOk3
                  rw [patchFields_priority]
                  exact resolvePrio_ok hv.2.2.1 ht0
  | @patchStatus dbp x i p now hv _ ih =>
    intro t ht
    unfold update_todo_status at ht
    cases hk : require_api_key apiKey x with
    | some c => rw [hk] at ht; exact ih t ht
    | none =>
      rw [hk] at ht
      by_cases hi : i < 1
      · rw [if_pos hi] at ht; exact ih t ht
      · rw [if_neg hi] at ht
        cases hg : get_or_404 dbp.todos i.toNat false with
        | none => rw [hg] at ht; exact ih t ht
        | some t0 =>
          rw [hg] at ht
          have ht2 : t ∈ setById dbp.todos i.toNat (statusField p.status now) := ht
          refine prioOk3_setById ih (fun u hu => ?_) t ht2
          unfold prioOk3
          rw [statusField_priority]
          exact ih u hu
  | @restore dbp x i now _ ih =>
    intro t ht
    unfold restore_todo at ht
    cases hk : require_api_key apiKey x with
    | some c => rw [hk] at ht; exact ih t ht
    | none =>
      rw [hk] at ht
      by_cases hi : i < 1
      · rw [if_pos hi] at ht; exact ih t ht
      · rw [if_neg hi] at ht
        cases hg : get_or_404 dbp.todos i.toNat true with
        | none => rw [hg] at ht; exact ih t ht
        | some t0 =>
          rw [hg] at ht
          have ht2 : t ∈ setById dbp.todos i.toNat (restoreFlag now) := ht
          refine prioOk3_setById ih (fun u hu => ?_) t ht2
          unfold prioOk3
          rw [restoreFlag_priority]
          exact ih u hu
  | @delete dbp x i now _ ih =>
    intro t ht
    unfold delete_todo at ht
    cases hk : require_api_key apiKey x with
    | some c => rw [hk] at ht; exact ih t ht
    | none =>
      rw [hk] at ht
      by_cases hi : i < 1
      · rw [if_pos hi] at ht; exact ih t ht
      · rw [if_neg hi] at ht
        cases hg : get_or_404 dbp.todos i.toNat false with
        | none => rw [hg] at ht; exact ih t ht
        | some t0 =>
          rw [hg] at ht
          have ht2 : t ∈ setById dbp.todos i.toNat (deleteFlag now) := ht
          refine prioOk3_setById ih (fun u hu => ?_) t ht2
          unfold prioOk3
          rw [deleteFlag_priority]
          exact ih u hu

/-- C9: on every reachable store state, for either `include_deleted` value,
the four stats counters satisfy `total = high + medium + low`. -/
theorem claim_stats_invariant {apiKey : String} {db : DB} (inc : Bool)
    (h : Reachable apiKey db) :
    (todos_stats inc db).total =
      (todos_stats inc db).high + (todos_stats inc db).medium + (todos_stats inc db).low := by
  have hp := reachable_prioInv h
  unfold todos_stats
  cases inc
  · exact length_eq_prio_counts _ fun t ht => hp t (List.mem_of_mem_filter ht)
  · exact length_eq_prio_counts _ hp

/-- Witness for C9 on the concrete store seeded at startup. -/
theorem claim_stats_invariant_witness :
    (todos_stats false (seed_data 0 dbInit)).total =
      (todos_stats false (seed_data 0 dbInit)).high +
        (todos_stats false (seed_data 0 dbInit)).medium +
        (todos_stats false (seed_data 0 dbInit)).low :=
  @claim_stats_invariant "name_here" (seed_data 0 dbInit) false
    (Reachable.seed 0 Reachable.init)

/-! Claim C6: partial-update field semantics. -/

/-- All column values of a patched row: the five written columns take the
resolved values, the id, creation timestamp and deletion flag are untouched. -/
theorem patchFields_fields (nm ds : String) (pr : Nat) (st : String) (du : Option Nat)
    (now : Nat) (t : Todo) :
    (patchFields nm ds pr st du now t).todo_name = nm ∧
    (patchFields nm ds pr st du now t).todo_description = ds ∧
    (patchFields nm ds pr st du now t).priority = pr ∧
    (patchFields nm ds pr st du now t).status = st ∧
    (patchFields nm ds pr st du now t).due_date = du ∧
    (patchFields nm ds pr st du now t).todo_id = t.todo_id ∧
    (patchFields nm ds pr st du now t).created_at = t.created_at ∧
    (patchFields nm ds pr st du now t).is_deleted = t.is_deleted := by
  unfold patchFields
  dsimp only
  split
  · next h =>
    exact ⟨(congrArg Todo.todo_name h).symm, (congrArg Todo.todo_description h).symm,
      (congrArg Todo.priority h).symm, (congrArg Todo.status h).symm,
      (congrArg Todo.due_date h).symm, rfl, rfl, rfl⟩
  · exact ⟨rfl, rfl, rfl, rfl, rfl, rfl, rfl, rfl⟩

/-- A resolved nullable field is `none` exactly when the payload supplied an
explicit `null` for it. -/
theorem resolveField_none {α : Type} {supplied : Option (Option α)} {old : α}
    (h : resolveField supplied old = none) : supplied = some none := by
  rcases supplied with _ | v
  · simp [resolveField] at h
  · rcases v with _ | w
    · rfl
    · simp [resolveField] at h

/-- C6 counterexample: a pydantic-valid partial-update payload carrying an
explicit `null` for `todo_name` does not clear the field — the assignment
violates the `nullable=False` column constraint at commit, the request fails
with a 500 and the store is unchanged, refuting "explicit null clears the
value for every field". -/
theorem claim_null_clears_cex :
    update_todo "k" (some "k") 1 nullNamePayload 7 { todos := [sampleA], nextId := 2 } =
      (Except.error 500, { todos := [sampleA], nextId := 2 }) ∧
    nullNamePayload.todo_name = some none ∧
    TodoUpdatePayload.Valid nullNamePayload := by
  refine ⟨by decide, rfl, ?_, ?_, ?_, ?_⟩
  · intro s h
    simp [nullNamePayload] at h
  · intro s h
    simp [nullNamePayload] at h
  · intro v h
    simp [nullNamePayload] at h
  · intro s h
    simp [nullNamePayload] at h

/-- C6 amended: on an existing non-deleted record with a correct key, a field
omitted from the partial-update payload keeps its value (and id, created_at,
is_deleted are never touched); an explicit `null` for `due_date` — the only
nullable column — clears it, distinctly from omission; but an explicit `null`
for `todo_name`, `todo_description` or `status` hits the `NOT NULL` column
constraint at commit, and one for `priority` crashes the handler on
`int(None)`, so those four fail the request with a 500 and leave the store
unchanged instead of clearing the value. -/
theorem claim_patch_field_semantics (apiKey : String) (x : Option String) (db : DB) (i : Int)
    (t : Todo) (p : TodoUpdatePayload) (now : Nat)
    (hx : x.getD "" = apiKey) (hi : 1 ≤ i)
    (hfind : get_or_404 db.todos i.toNat false = some t) :
    (∀ t2, (update_todo apiKey x i p now db).1 = Except.ok t2 →
      (p.todo_name = none → t2.todo_name = t.todo_name) ∧
      (p.todo_description = none → t2.todo_description = t.todo_description) ∧
      (p.priority = none → t2.priority = t.priority) ∧
      (p.status = none → t2.status = t.status) ∧
      (p.due_date = none → t2.due_date = t.due_date) ∧
      t2.todo_id = t.todo_id ∧ t2.created_at = t.created_at ∧ t2.is_deleted = t.is_deleted) ∧
    (p.due_date = some none →
      ∀ t2, (update_todo apiKey x i p now db).1 = Except.ok t2 → t2.due_date = none) ∧
    ((p.todo_name = some none ∨ p.todo_description = some none ∨ p.status = some none ∨
        p.priority = some none) →
      update_todo apiKey x i p now db = (Except.error 500, db)) := by
  have hra := require_api_key_pass hx
  have hlt : ¬i < 1 := by omega
  by_cases hpn : p.priority = some none
  · have hred : update_todo apiKey x i p now db = (Except.error 500, db) := by
      unfold update_todo
      rw [hra]
      dsimp only
      rw [if_neg hlt, hfind]
      dsimp only
      rw [if_pos hpn]
    refine ⟨fun t2 h2 => ?_, fun hdd t2 h2 => ?_, fun _ => hred⟩
    · rw [hred] at h2; simp at h2
    · rw [hred] at h2; simp at h2
  · cases hnm : resolveField p.todo_name t.todo_name with
    | none =>
      have hred : update_todo apiKey x i p now db = (Except.error 500, db) := by
        unfold update_todo
        rw [hra]
        dsimp only
        rw [if_neg hlt, hfind]
        dsimp only
        rw [if_neg hpn, hnm]
      refine ⟨fun t2 h2 => ?_, fun hdd t2 h2 => ?_, fun _ => hred⟩
      · rw [hred] at h2; simp at h2
      · rw [hred] at h2; simp at h2
    | some nm =>
      cases hds : resolveField p.todo_description t.todo_description with
      | none =>
        have hred : update_todo apiKey x i p now db = (Except.error 500, db) := by
          unfold update_todo
          rw [hra]
          dsimp only
          rw [if_neg hlt, hfind]
          dsimp only
          rw [if_neg hpn, hnm, hds]
        refine ⟨fun t2 h2 => ?_, fun hdd t2 h2 => ?_, fun _ => hred⟩
        · rw [hred] at h2; simp at h2
        · rw [hred] at h2; simp at h2
      | some ds =>
        cases hst : resolveField p.status t.status with
        | none =>
          have hred : update_todo apiKey x i p now db = (Except.error 500, db) := by
            unfold update_todo
            rw [hra]
            dsimp only
            rw [if_neg hlt, hfind]
            dsimp only
            rw [if_neg hpn, hnm, hds, hst]
          refine ⟨fun t2 h2 => ?_, fun hdd t2 h2 => ?_, fun _ => hred⟩
          · rw [hred] at h2; simp at h2
          · rw [hred] at h2; simp at h2
        | some st =>
          have hred : update_todo apiKey x i p now db =
              (Except.ok
                (patchFields nm ds (resolvePrio p.priority t.priority) st
                  (resolveDue p.due_date t.due_date) now t),
                { db with
                  todos :=
                    setById db.todos i.toNat
                      (patchFields nm ds (resolvePrio p.priority t.priority) st
                        (resolveDue p.due_date t.due_date) now) }) := by
            unfold update_todo
            rw [hra]
            dsimp only
            rw [if_neg hlt, hfind]
            dsimp only
            rw [if_neg hpn, hnm, hds, hst]
          have hpf := patchFields_fields nm ds (resolvePrio p.priority t.priority) st
            (resolveDue p.due_date t.due_date) now t
          refine ⟨fun t2 h2 => ?_, fun hdd t2 h2 => ?_, fun hz => ?_⟩
          · rw [hred] at h2
            simp only [Except.ok.injEq] at h2
            subst h2
            refine ⟨fun hq => ?_, fun hq => ?_, fun hq => ?_, fun hq => ?_, fun hq => ?_,
              hpf.2.2.2.2.2.1, hpf.2.2.2.2.2.2.1, hpf.2.2.2.2.2.2.2⟩
            · rw [hq] at hnm
              simp [resolveField] at hnm
              rw [hpf.1, hnm]
            · rw [hq] at hds
              simp [resolveField] at hds
              rw [hpf.2.1, hds]
            · rw [hpf.2.2.1, hq]
              rfl
            · rw [hq] at hst
              simp [resolveField] at hst
              rw [hpf.2.2.2.1, hst]
            · rw [hpf.2.2.2.2.1, hq]
              rfl
          · rw [hred] at h2
            simp only [Except.ok.injEq] at h2
            subst h2
            rw [hpf.2.2.2.2.1, hdd]
            rfl
          · rcases hz with hz | hz | hz | hz
            · rw [hz] at hnm
              simp [resolveField] at hnm
            · rw [hz] at hds
              simp [resolveField] at hds
            · rw [hz] at hst
              simp [resolveField] at hst
            · exact absurd hz hpn

/-- Witness for C6: an explicit `null` on `status` fails with a 500 leaving
the store untouched, and an explicit `null` on `due_date` clears the stored
due date. -/
theorem claim_patch_field_semantics_witness :
    update_todo "k" (some "k") 2 { status := some none } 7 { todos := [sampleB], nextId := 3 } =
      (Except.error 500, { todos := [sampleB], nextId := 3 }) ∧
    ({ sampleB with due_date := none, updated_at := 7 } : Todo).due_date = none := by
  constructor
  · exact (claim_patch_field_semantics "k" (some "k") { todos := [sampleB], nextId := 3 } 2
      sampleB { status := some none } 7 rfl (by decide) (by decide)).2.2
      (Or.inr (Or.inr (Or.inl rfl)))
  · exact (claim_patch_field_semantics "k" (some "k") { todos := [sampleB], nextId := 3 } 2
      sampleB { due_date := some none } 7 rfl (by decide) (by decide)).2.1 rfl _ (by decide)

/-! Claim C5: delete-then-restore round trip. -/

theorem deleteFlag_id (now : Nat) (u : Todo) : (deleteFlag now u).todo_id = u.todo_id := by
  unfold deleteFlag
  split <;> rfl

theorem restoreFlag_id (now : Nat) (u : Todo) : (restoreFlag now u).todo_id = u.todo_id := by
  unfold restoreFlag
  split <;> rfl

theorem touchUpdatedAt_id (id now2 : Nat) (u : Todo) :
    (touchUpdatedAt id now2 u).todo_id = u.todo_id := by
  unfold touchUpdatedAt
  split <;> rfl

theorem touchUpdatedAt_deleted (id now2 : Nat) (u : Todo) :
    (touchUpdatedAt id now2 u).is_deleted = u.is_deleted := by
  unfold touchUpdatedAt
  split <;> rfl

/-- Filtering commutes with a map that does not change the filtered column. -/
theorem filter_map_pred (g : Todo → Todo) (p : Todo → Bool)
    (hp : ∀ u, p (g u) = p u) (l : List Todo) :
    (l.map g).filter p = (l.filter p).map g := by
  rw [List.filter_map]
  congr 1
  exact List.filter_congr fun u _ => by
    simp only [Function.comp_apply]
    exact hp u

/-- With pairwise-distinct primary keys, filtering on the key of a member
leaves exactly that member. -/
theorem filter_id_eq_singleton {l : List Todo} {t : Todo}
    (hnd : (l.map Todo.todo_id).Nodup) (ht : t ∈ l) :
    l.filter (fun u => u.todo_id == t.todo_id) = [t] := by
  induction l with
  | nil => cases ht
  | cons a l ih =>
    rw [List.map_cons, List.nodup_cons] at hnd
    rcases List.mem_cons.mp ht with rfl | ht2
    · rw [List.filter_cons_of_pos (by simp)]
      have hnil : l.filter (fun u => u.todo_id == t.todo_id) = [] := by
        rw [List.filter_eq_nil_iff]
        intro u hu hbeq
        refine hnd.1 ?_
        have he : u.todo_id = t.todo_id := by simpa using hbeq
        rw [← he]
        exact List.mem_map_of_mem _ hu
      rw [hnil]
    · have hne : ¬a.todo_id = t.todo_id := by
        intro he
        refine hnd.1 ?_
        rw [he]
        exact List.mem_map_of_mem _ ht2
      rw [List.filter_cons_of_neg (by simp [hne])]
      exact ih hnd.2 ht2

/-- With pairwise-distinct primary keys, two members with the same key are the
same record. -/
theorem eq_of_same_id {l : List Todo} {t u : Todo} (hnd : (l.map Todo.todo_id).Nodup)
    (ht : t ∈ l) (hu : u ∈ l) (h : u.todo_id = t.todo_id) : u = t := by
  have h1 := filter_id_eq_singleton hnd ht
  have h2 : u ∈ l.filter fun v => v.todo_id == t.todo_id :=
    List.mem_filter.mpr ⟨hu, by simp [h]⟩
  rw [h1] at h2
  exact List.mem_singleton.mp h2

/-- The default listing of a store whose rows were rewritten by an id- and
flag-preserving map is the rewritten default listing of the original store. -/
theorem list_todos_dflt_map (g : Todo → Todo)
    (hid : ∀ u, (g u).todo_id = u.todo_id)
    (hdel : ∀ u, (g u).is_deleted = u.is_deleted)
    (todos : List Todo) (n1 n2 : Nat) (now : Nat) :
    list_todos dfltParams now { todos := todos.map g, nextId := n2 } =
      (list_todos dfltParams now { todos := todos, nextId := n1 }).map g := by
  have hL : ∀ (l : List Todo) (n : Nat),
      list_todos dfltParams now { todos := l, nextId := n } =
        ((l.filter fun u => !u.is_deleted).insertionSort
          (sqlOrder SortBy.todo_id OrderBy.asc)).take 10 := fun l n => rfl
  have hfil : (todos.map g).filter (fun u => !u.is_deleted) =
      (todos.filter fun u => !u.is_deleted).map g :=
    filter_map_pred g _ (fun u => by rw [hdel u]) todos
  have hsort :
      ((todos.filter fun u => !u.is_deleted).map g).insertionSort
          (sqlOrder SortBy.todo_id OrderBy.asc) =
        ((todos.filter fun u => !u.is_deleted).insertionSort
          (sqlOrder SortBy.todo_id OrderBy.asc)).map g := by
    refine (List.map_insertionSort (sqlOrder SortBy.todo_id OrderBy.asc)
      (sqlOrder SortBy.todo_id OrderBy.asc) g _ ?_).symm
    intro a _ b _
    unfold sqlOrder sortLe fieldLe
    rw [hid a, hid b]
  rw [hL (todos.map g) n2, hL todos n1, hfil, hsort, List.map_take]

/-- C5: soft-deleting an existing active record and then restoring it yields a
record equal to its pre-delete state in every field except `updated_at`, found
again by the default per-id lookup; and whenever the record appeared in the
default listing before the round trip, its restored version appears in the
default listing afterwards. -/
theorem claim_delete_restore_roundtrip (apiKey : String) (x : Option String) (db : DB)
    (i : Int) (t : Todo) (now1 now2 now : Nat)
    (hx : x.getD "" = apiKey) (hi : 1 ≤ i)
    (hnodup : (db.todos.map Todo.todo_id).Nodup)
    (hfind : get_or_404 db.todos i.toNat false = some t) :
    get_or_404 (restore_todo apiKey x i now2 (delete_todo apiKey x i now1 db).2).2.todos
        i.toNat false = some { t with updated_at := now2 } ∧
    (t ∈ list_todos dfltParams now db →
      { t with updated_at := now2 } ∈
        list_todos dfltParams now
          (restore_todo apiKey x i now2 (delete_todo apiKey x i now1 db).2).2) := by
  have hra := require_api_key_pass hx
  have hlt : ¬i < 1 := by omega
  obtain ⟨htmem, htid, htdel0⟩ := get_or_404_spec hfind
  have htdel : t.is_deleted = false := htdel0 rfl
  have hfilter : db.todos.filter (fun u => u.todo_id == i.toNat) = [t] := by
    have h1 := filter_id_eq_singleton hnodup htmem
    rw [htid] at h1
    exact h1
  have hdb1 : (delete_todo apiKey x i now1 db).2 =
      { todos := setById db.todos i.toNat (deleteFlag now1), nextId := db.nextId } := by
    unfold delete_todo
    rw [hra]
    dsimp only
    rw [if_neg hlt, hfind]
  have hp1 : ∀ u,
      ((if u.todo_id == i.toNat then deleteFlag now1 u else u).todo_id == i.toNat) =
        (u.todo_id == i.toNat) := by
    intro u
    by_cases h : u.todo_id == i.toNat
    · rw [if_pos h, deleteFlag_id]
    · rw [if_neg h]
  have hfid : (setById db.todos i.toNat (deleteFlag now1)).filter
      (fun u => u.todo_id == i.toNat) = [deleteFlag now1 t] := by
    unfold setById
    rw [filter_map_pred _ _ hp1 db.todos, hfilter]
    simp [htid]
  have hg2 : get_or_404 (setById db.todos i.toNat (deleteFlag now1)) i.toNat true =
      some (deleteFlag now1 t) := by
    show ((setById db.todos i.toNat (deleteFlag now1)).filter
        (fun u => u.todo_id == i.toNat)).head? = some (deleteFlag now1 t)
    rw [hfid]
    rfl
  have hdb2 : (restore_todo apiKey x i now2 (delete_todo apiKey x i now1 db).2).2 =
      { todos := setById (setById db.todos i.toNat (deleteFlag now1)) i.toNat
          (restoreFlag now2), nextId := db.nextId } := by
    rw [hdb1]
    unfold restore_todo
    rw [hra]
    dsimp only
    rw [if_neg hlt, hg2]
  have hcomp : setById (setById db.todos i.toNat (deleteFlag now1)) i.toNat
      (restoreFlag now2) = db.todos.map (touchUpdatedAt i.toNat now2) := by
    unfold setById
    rw [List.map_map]
    refine List.map_congr_left fun u hu => ?_
    simp only [Function.comp_apply]
    by_cases h : u.todo_id == i.toNat
    · have hut : u = t := eq_of_same_id hnodup htmem hu (by rw [htid]; simpa using h)
      subst hut
      rw [if_pos h]
      rw [if_pos (by rw [deleteFlag_id]; exact h)]
      unfold touchUpdatedAt
      rw [if_pos h]
      unfold deleteFlag
      rw [if_neg (by simp [htdel])]
      unfold restoreFlag
      dsimp only
      rw [if_pos rfl, ← htdel]
    · rw [if_neg h]
      rw [if_neg h]
      unfold touchUpdatedAt
      rw [if_neg h]
  have hp2 : ∀ u,
      ((touchUpdatedAt i.toNat now2 u).todo_id == i.toNat) = (u.todo_id == i.toNat) :=
    fun u => by rw [touchUpdatedAt_id]
  have hgt : touchUpdatedAt i.toNat now2 t = { t with updated_at := now2 } := by
    unfold touchUpdatedAt
    rw [if_pos (by simp [htid])]
  have hget2 : get_or_404 (db.todos.map (touchUpdatedAt i.toNat now2)) i.toNat false =
      some { t with updated_at := now2 } := by
    show (((db.todos.map (touchUpdatedAt i.toNat now2)).filter
        (fun u => u.todo_id == i.toNat)).filter fun u => !u.is_deleted).head? =
      some { t with updated_at := now2 }
    rw [filter_map_pred _ _ hp2 db.todos, hfilter]
    simp [hgt, htdel]
  constructor
  · rw [hdb2]
    show get_or_404 (setById (setById db.todos i.toNat (deleteFlag now1)) i.toNat
        (restoreFlag now2)) i.toNat false = some { t with updated_at := now2 }
    rw [hcomp]
    exact hget2
  · intro hmem
    rw [hdb2]
    have hshow : list_todos dfltParams now
        ({ todos := setById (setById db.todos i.toNat (deleteFlag now1)) i.toNat
            (restoreFlag now2), nextId := db.nextId } : DB) =
        (list_todos dfltParams now db).map (touchUpdatedAt i.toNat now2) := by
      rw [hcomp]
      exact list_todos_dflt_map (touchUpdatedAt i.toNat now2) (touchUpdatedAt_id _ _)
        (touchUpdatedAt_deleted _ _) db.todos db.nextId db.nextId now
    rw [hshow, ← hgt]
    exact List.mem_map_of_mem _ hmem

/-- Witness for C5: deleting then restoring the first sample record leaves all
its fields unchanged except `updated_at`, and it reappears in the default
listing. -/
theorem claim_delete_restore_roundtrip_witness :
    get_or_404 (restore_todo "k" (some "k") 1 8 (delete_todo "k" (some "k") 1 5 sampleDB).2).2.todos
        1 false = some { sampleA with updated_at := 8 } ∧
    { sampleA with updated_at := 8 } ∈
      list_todos dfltParams 0
        (restore_todo "k" (some "k") 1 8 (delete_todo "k" (some "k") 1 5 sampleDB).2).2 := by
  have h := claim_delete_restore_roundtrip "k" (some "k") sampleDB 1 sampleA 5 8 0 rfl
    (by decide) (by decide) (by decide)
  exact ⟨h.1, h.2 (by decide)⟩

end TodoApp

